import Mathlib

/-!
Verification of the AI-Customer-Support-Agent repository: a shallow
embedding of its retrieval engine, stage functions and the two
orchestrator variants, with theorems checking the specification's claims.

Conventions of the embedding:
* Python floats are modelled as exact rationals (`ℚ`); the external
  numeric routines (the sentence-transformer encoder, sklearn's
  `cosine_similarity`) are opaque capabilities carried in an environment
  record.
* Python code that can raise is modelled with `Except String`; a
  `try/except` block is a `match` on the `Except` value.
* Python truthiness: `None` and `""` are falsy for optional strings, the
  empty list is falsy for lists.
-/

namespace SupportAgent

/-- The `Config` class of `configs/config.py`, restricted to the settings the
retrieval and agent code reads.  The class defines `TOP_K` and
`SIMILARITY_THRESHOLD` (among others) but **no** `MAX_SOURCES` attribute. -/
structure Config where
  TOP_K : Nat := 3
  SIMILARITY_THRESHOLD : ℚ := mkRat 3 10
  OPENAI_API_KEY : String := ""

/-- Python attribute access `config.MAX_SOURCES` (used at
`configs/database.py` line 95, `agentWorkflow/agents.py` line 106 and
`configs/config.py` line 41): the `Config` class defines no `MAX_SOURCES`
attribute, so every such access raises `AttributeError`. -/
def configMaxSources (_ : Config) : Except String Nat :=
  .error "AttributeError: type object Config has no attribute MAX_SOURCES"

/-- `configs/models.py` `SearchResult`. -/
structure SearchResult where
  content : String
  similarity : ℚ
  source : String
  category : String
deriving DecidableEq, Repr

/-- A MongoDB document as `search_documents` reads it back: the projection
keeps `content`, `embedding`, `source`, `category`.  `embedding` may be
missing (`none`) or present but empty; `source`/`category` may be missing
(the code uses `doc.get(…)` with defaults). -/
structure StoredDoc where
  content : String
  embedding : Option (List ℚ)
  source : Option String
  category : Option String
deriving DecidableEq, Repr

/-- The document in `doc` has a non-missing, non-empty (truthy) embedding:
the Python guard `"embedding" in doc and doc["embedding"]`
(`configs/database.py` line 107). -/
def hasEmbedding (d : StoredDoc) : Bool :=
  match d.embedding with
  | some (_ :: _) => true
  | _ => false

/-- The state and external capabilities of `DatabaseManager`
(`configs/database.py`): the connection flag, the embedding model
(`self.embedding_model.encode`, which can fail), sklearn's
`cosine_similarity` as an opaque exact-valued scoring function, and the
MongoDB collection contents in iteration order. -/
structure DbEnv where
  is_connected : Bool
  encode : String → Except String (List ℚ)
  cos_sim : List ℚ → List ℚ → ℚ
  store : List StoredDoc

/-- Scoring of one document inside the `async for` loop of
`search_documents` (`configs/database.py` lines 106-116): documents with a
missing or empty embedding are skipped; otherwise the cosine similarity is
computed and the document is kept iff `similarity >= SIMILARITY_THRESHOLD`. -/
def scoreDoc (cfg : Config) (sim : List ℚ → List ℚ → ℚ) (qe : List ℚ)
    (d : StoredDoc) : Option SearchResult :=
  d.embedding.bind fun e =>
    if e = [] then none
    else
      let s := sim qe e
      if cfg.SIMILARITY_THRESHOLD ≤ s then
        some ⟨d.content, s, d.source.getD "Unknown", d.category.getD "general"⟩
      else none

/-- The `results` list built by the loop, in store iteration order. -/
def scoredCandidates (cfg : Config) (sim : List ℚ → List ℚ → ℚ) (qe : List ℚ)
    (store : List StoredDoc) : List SearchResult :=
  store.filterMap (scoreDoc cfg sim qe)

/-- Insertion into a descending-sorted list, after any entries of equal
similarity: the building block of the stable descending sort that models
Python's stable `results.sort(key=…, reverse=True)`
(`configs/database.py` line 118). -/
def insertDesc (x : SearchResult) : List SearchResult → List SearchResult
  | [] => [x]
  | y :: ys => if y.similarity < x.similarity then x :: y :: ys else y :: insertDesc x ys

/-- Stable insertion sort, processing the list left to right. -/
def sortDescAux (acc : List SearchResult) (l : List SearchResult) : List SearchResult :=
  l.foldl (fun a x => insertDesc x a) acc

/-- Stable sort by descending similarity (Python `list.sort` is stable). -/
def sortDesc (l : List SearchResult) : List SearchResult :=
  sortDescAux [] l

/-- `DatabaseManager.search_documents` (`configs/database.py` lines 92-123).
`max_results = none` models calling it with the argument omitted (Python
default `None`), which makes line 95 read `config.MAX_SOURCES`; that read
happens before the connectivity check and outside the `try` block. -/
def search_documents (cfg : Config) (env : DbEnv) (query : String)
    (max_results : Option Nat) : Except String (List SearchResult) := do
  let k ← match max_results with
    | none => configMaxSources cfg
    | some k => pure k
  if !env.is_connected then
    return []
  match env.encode query with
  | .error _ => return []
  | .ok qe => return (sortDesc (scoredCandidates cfg env.cos_sim qe env.store)).take k

lemma pure_ok {α : Type} (a : α) : (pure a : Except String α) = .ok a := rfl

lemma ok_bind {α β : Type} (a : α) (f : α → Except String β) :
    (Except.ok a : Except String α) >>= f = f a := rfl

/-- The list is sorted by non-increasing similarity. -/
def SortedDesc (l : List SearchResult) : Prop :=
  l.Pairwise (fun a b => b.similarity ≤ a.similarity)

lemma mem_insertDesc {x y : SearchResult} {l : List SearchResult} :
    y ∈ insertDesc x l ↔ y = x ∨ y ∈ l := by
  induction l with
  | nil => simp [insertDesc]
  | cons z zs ih =>
      by_cases h : z.similarity < x.similarity
      · simp [insertDesc, h]
      · simp [insertDesc, h, ih]
        tauto

lemma insertDesc_sorted (x : SearchResult) {l : List SearchResult}
    (h : SortedDesc l) : SortedDesc (insertDesc x l) := by
  induction l with
  | nil => simp [insertDesc, SortedDesc]
  | cons z zs ih =>
      rw [SortedDesc, List.pairwise_cons] at h
      by_cases hlt : z.similarity < x.similarity
      · rw [SortedDesc, insertDesc, if_pos hlt]
        refine List.pairwise_cons.mpr ⟨?_, List.pairwise_cons.mpr h⟩
        intro y hy
        rcases List.mem_cons.mp hy with rfl | hy
        · exact le_of_lt hlt
        · exact le_trans (h.1 y hy) (le_of_lt hlt)
      · rw [SortedDesc, insertDesc, if_neg hlt]
        refine List.pairwise_cons.mpr ⟨?_, ih h.2⟩
        intro y hy
        rcases mem_insertDesc.mp hy with rfl | hy
        · exact le_of_not_lt hlt
        · exact h.1 y hy

lemma mem_sortDescAux {y : SearchResult} :
    ∀ {l acc : List SearchResult}, y ∈ sortDescAux acc l ↔ y ∈ acc ∨ y ∈ l := by
  intro l
  induction l with
  | nil => simp [sortDescAux]
  | cons x xs ih =>
      intro acc
      rw [sortDescAux, List.foldl_cons]
      show y ∈ sortDescAux (insertDesc x acc) xs ↔ _
      rw [ih, mem_insertDesc]
      simp
      tauto

lemma sortDescAux_sorted :
    ∀ {l acc : List SearchResult}, SortedDesc acc → SortedDesc (sortDescAux acc l) := by
  intro l
  induction l with
  | nil => intro acc h; exact h
  | cons x xs ih =>
      intro acc h
      rw [sortDescAux, List.foldl_cons]
      exact ih (insertDesc_sorted x h)

lemma mem_sortDesc {y : SearchResult} {l : List SearchResult} :
    y ∈ sortDesc l ↔ y ∈ l := by
  rw [sortDesc, mem_sortDescAux]; simp

lemma sortDesc_sorted (l : List SearchResult) : SortedDesc (sortDesc l) :=
  sortDescAux_sorted (by simp [SortedDesc])

/-- Filtering a class of equal similarity out of an insertion: the new
element lands after the existing members of its class. -/
lemma filter_insertDesc (x : SearchResult) {l : List SearchResult} (s : ℚ)
    (h : SortedDesc l) :
    (insertDesc x l).filter (fun r => decide (r.similarity = s)) =
      if x.similarity = s then
        l.filter (fun r => decide (r.similarity = s)) ++ [x]
      else
        l.filter (fun r => decide (r.similarity = s)) := by
  induction l with
  | nil =>
      by_cases hx : x.similarity = s <;> simp [insertDesc, List.filter, hx]
  | cons z zs ih =>
      rw [SortedDesc, List.pairwise_cons] at h
      by_cases hlt : z.similarity < x.similarity
      · rw [insertDesc, if_pos hlt]
        by_cases hx : x.similarity = s
        · have hz : ∀ y ∈ z :: zs, ¬ (decide (y.similarity = s) = true) := by
            intro y hy
            rcases List.mem_cons.mp hy with rfl | hy
            · simp only [decide_eq_true_eq]
              exact ne_of_lt (hx ▸ hlt)
            · simp only [decide_eq_true_eq]
              exact ne_of_lt (lt_of_le_of_lt (h.1 y hy) (hx ▸ hlt))
          have hnil : (z :: zs).filter (fun r => decide (r.similarity = s)) = [] :=
            List.filter_eq_nil_iff.mpr hz
          rw [if_pos hx, List.filter_cons_of_pos (by simpa using hx), hnil]
          simp
        · rw [if_neg hx, List.filter_cons_of_neg (by simpa using hx)]
      · rw [insertDesc, if_neg hlt]
        have ih' := ih h.2
        by_cases hz : z.similarity = s
        · rw [List.filter_cons_of_pos (by simpa using hz),
            List.filter_cons_of_pos (by simpa using hz), ih']
          by_cases hx : x.similarity = s <;> simp [hx]
        · rw [List.filter_cons_of_neg (by simpa using hz),
            List.filter_cons_of_neg (by simpa using hz), ih']

/-- Stability of the full sort: within each class of equal similarity the
sorted list keeps the original order. -/
lemma filter_sortDescAux (s : ℚ) :
    ∀ (l : List SearchResult) {acc : List SearchResult}, SortedDesc acc →
      (sortDescAux acc l).filter (fun r => decide (r.similarity = s)) =
        acc.filter (fun r => decide (r.similarity = s)) ++
          l.filter (fun r => decide (r.similarity = s)) := by
  intro l
  induction l with
  | nil => intro acc _; simp [sortDescAux]
  | cons x xs ih =>
      intro acc hacc
      rw [sortDescAux, List.foldl_cons]
      show (sortDescAux (insertDesc x acc) xs).filter _ = _
      rw [ih (insertDesc_sorted x hacc), filter_insertDesc x s hacc]
      by_cases hx : x.similarity = s
      · rw [if_pos hx, List.filter_cons_of_pos (by simpa using hx)]
        simp
      · rw [if_neg hx, List.filter_cons_of_neg (by simpa using hx)]

lemma sortDesc_filter (l : List SearchResult) (s : ℚ) :
    (sortDesc l).filter (fun r => decide (r.similarity = s)) =
      l.filter (fun r => decide (r.similarity = s)) := by
  rw [sortDesc, filter_sortDescAux s l (by simp [SortedDesc])]
  simp

lemma isPrefix_filter {l₁ l₂ : List SearchResult} (p : SearchResult → Bool)
    (h : l₁ <+: l₂) : l₁.filter p <+: l₂.filter p := by
  rcases h with ⟨t, rfl⟩
  exact ⟨t.filter p, (List.filter_append _ _).symm⟩

/-- What membership in the loop's `results` list tells about a candidate:
it came from a stored document with a truthy embedding, carries that
document's content, and its cosine similarity met the threshold. -/
lemma mem_scoredCandidates {cfg : Config} {sim : List ℚ → List ℚ → ℚ}
    {qe : List ℚ} {store : List StoredDoc} {x : SearchResult}
    (hx : x ∈ scoredCandidates cfg sim qe store) :
    cfg.SIMILARITY_THRESHOLD ≤ x.similarity ∧
      ∃ d ∈ store, (∃ e, d.embedding = some e ∧ e ≠ [] ∧ x.similarity = sim qe e) ∧
        x.content = d.content := by
  rcases List.mem_filterMap.mp hx with ⟨d, hd, hscore⟩
  rcases hemb : d.embedding with - | e
  · rw [scoreDoc, hemb] at hscore; cases hscore
  · rw [scoreDoc, hemb, Option.some_bind] at hscore
    by_cases hnil : e = []
    · rw [if_pos hnil] at hscore; cases hscore
    · rw [if_neg hnil] at hscore
      by_cases hthr : cfg.SIMILARITY_THRESHOLD ≤ sim qe e
      · rw [if_pos hthr] at hscore
        cases hscore
        exact ⟨hthr, d, hd, ⟨e, hemb, hnil, rfl⟩, rfl⟩
      · rw [if_neg hthr] at hscore; cases hscore

/-- A stored document with a truthy embedding whose similarity meets the
threshold (equality included) is kept among the candidates. -/
lemma scoredCandidates_keeps {cfg : Config} {sim : List ℚ → List ℚ → ℚ}
    {qe : List ℚ} {store : List StoredDoc} {d : StoredDoc} {e : List ℚ}
    (hd : d ∈ store) (hemb : d.embedding = some e) (hne : e ≠ [])
    (hthr : cfg.SIMILARITY_THRESHOLD ≤ sim qe e) :
    (⟨d.content, sim qe e, d.source.getD "Unknown",
      d.category.getD "general"⟩ : SearchResult) ∈
        scoredCandidates cfg sim qe store := by
  refine List.mem_filterMap.mpr ⟨d, hd, ?_⟩
  rw [scoreDoc, hemb, Option.some_bind, if_neg hne, if_pos hthr]

/-- A document without a truthy embedding contributes nothing. -/
lemma scoreDoc_of_not_hasEmbedding {cfg : Config} {sim : List ℚ → List ℚ → ℚ}
    {qe : List ℚ} {d : StoredDoc} (h : hasEmbedding d = false) :
    scoreDoc cfg sim qe d = none := by
  rcases hemb : d.embedding with - | e
  · rw [scoreDoc, hemb]; rfl
  · rcases e with - | ⟨a, as⟩
    · rw [scoreDoc, hemb, Option.some_bind, if_pos rfl]
    · rw [hasEmbedding, hemb] at h; cases h

lemma scoredCandidates_filter_store (cfg : Config) (sim : List ℚ → List ℚ → ℚ)
    (qe : List ℚ) (store : List StoredDoc) :
    scoredCandidates cfg sim qe (store.filter hasEmbedding) =
      scoredCandidates cfg sim qe store := by
  induction store with
  | nil => rfl
  | cons d ds ih =>
      by_cases h : hasEmbedding d
      · rw [scoredCandidates, List.filter_cons_of_pos h, List.filterMap_cons,
          scoredCandidates, List.filterMap_cons]
        cases scoreDoc cfg sim qe d <;> simpa [scoredCandidates] using ih
      · rw [scoredCandidates, List.filter_cons_of_neg h, scoredCandidates,
          List.filterMap_cons, scoreDoc_of_not_hasEmbedding (by simpa using h)]
        exact ih

/-- **C2.**  For every query and store, on the normal path (connected
store, embedding obtained) `search_documents` keeps exactly the documents
whose similarity reaches the threshold (equality kept, cf.
`scoredCandidates_keeps`), sorts the survivors by descending similarity
with ties in original store iteration order (each equal-similarity class
of the result is a prefix of that class in the candidate list, which is in
store order), and truncates to the given limit. -/
theorem search_documents_ranking (cfg : Config) (env : DbEnv) (query : String)
    (k : Nat) (qe : List ℚ) (hconn : env.is_connected = true)
    (henc : env.encode query = .ok qe) :
    ∃ r, search_documents cfg env query (some k) = .ok r ∧
      (∀ x ∈ r, cfg.SIMILARITY_THRESHOLD ≤ x.similarity) ∧
      (∀ d ∈ env.store, ∀ e, d.embedding = some e → e ≠ [] →
        cfg.SIMILARITY_THRESHOLD ≤ env.cos_sim qe e →
        (⟨d.content, env.cos_sim qe e, d.source.getD "Unknown",
          d.category.getD "general"⟩ : SearchResult) ∈
            scoredCandidates cfg env.cos_sim qe env.store) ∧
      SortedDesc r ∧
      r.length ≤ k ∧
      (∀ s : ℚ, r.filter (fun x => decide (x.similarity = s)) <+:
        (scoredCandidates cfg env.cos_sim qe env.store).filter
          (fun x => decide (x.similarity = s))) := by
  refine ⟨(sortDesc (scoredCandidates cfg env.cos_sim qe env.store)).take k,
    ?_, ?_, ?_, ?_, ?_, ?_⟩
  · simp [search_documents, hconn, henc]
    rfl
  · intro x hx
    exact (mem_scoredCandidates (mem_sortDesc.mp (List.mem_of_mem_take hx))).1
  · intro d hd e hemb hne hthr
    exact scoredCandidates_keeps hd hemb hne hthr
  · exact List.Pairwise.sublist (List.take_sublist _ _) (sortDesc_sorted _)
  · simp
  · intro s
    have h1 := isPrefix_filter (fun x => decide (x.similarity = s))
      (List.take_prefix k (sortDesc (scoredCandidates cfg env.cos_sim qe env.store)))
    rwa [sortDesc_filter] at h1

/-- The §8 retrieval scenario: a store of three documents scoring 0.81,
0.62 and 0.29 against the query embedding, threshold 0.3. -/
def scenCfg : Config where
  TOP_K := 3
  SIMILARITY_THRESHOLD := mkRat 3 10
  OPENAI_API_KEY := ""

def scenEnv : DbEnv where
  is_connected := true
  encode := fun _ => .ok [mkRat 1 1]
  cos_sim := fun _ e =>
    if e = [mkRat 1 1] then mkRat 81 100
    else if e = [mkRat 2 1] then mkRat 62 100
    else mkRat 29 100
  store :=
    [⟨"Doc one", some [mkRat 1 1], some "manual", some "general"⟩,
     ⟨"Doc two", some [mkRat 2 1], some "manual", some "general"⟩,
     ⟨"Doc three", some [mkRat 3 1], some "manual", some "general"⟩]

/-- Witness for `search_documents_ranking`: on the concrete scenario the
result is exactly the first two documents, highest similarity first. -/
theorem search_documents_ranking_witness :
    (search_documents scenCfg scenEnv "App won't connect" (some 5) =
      .ok [⟨"Doc one", mkRat 81 100, "manual", "general"⟩,
        ⟨"Doc two", mkRat 62 100, "manual", "general"⟩]) ∧
    (∃ r, search_documents scenCfg scenEnv "App won't connect" (some 5) = .ok r ∧
      (∀ x ∈ r, scenCfg.SIMILARITY_THRESHOLD ≤ x.similarity) ∧
      (∀ d ∈ scenEnv.store, ∀ e, d.embedding = some e → e ≠ [] →
        scenCfg.SIMILARITY_THRESHOLD ≤ scenEnv.cos_sim [mkRat 1 1] e →
        (⟨d.content, scenEnv.cos_sim [mkRat 1 1] e, d.source.getD "Unknown",
          d.category.getD "general"⟩ : SearchResult) ∈
            scoredCandidates scenCfg scenEnv.cos_sim [mkRat 1 1] scenEnv.store) ∧
      SortedDesc r ∧
      r.length ≤ 5 ∧
      (∀ s : ℚ, r.filter (fun x => decide (x.similarity = s)) <+:
        (scoredCandidates scenCfg scenEnv.cos_sim [mkRat 1 1] scenEnv.store).filter
          (fun x => decide (x.similarity = s)))) :=
  ⟨by rfl,
   search_documents_ranking scenCfg scenEnv "App won't connect" 5 [mkRat 1 1] rfl rfl⟩

/-- **C8 (code bug).**  Calling `search_documents` with the limit omitted
evaluates `config.MAX_SOURCES` (`configs/database.py` line 95) before
anything else; `Config` has no such attribute, so the call raises
`AttributeError` instead of falling back to a configured default. -/
theorem search_documents_omitted_limit_raises (cfg : Config) (env : DbEnv)
    (query : String) :
    search_documents cfg env query none =
      .error "AttributeError: type object Config has no attribute MAX_SOURCES" := rfl

/-- **C5 (code bug).**  With an explicit limit the advertised degradation
holds: a disconnected store, an embedding-provider failure, and an empty
store each yield `ok []` without raising.  But with the limit omitted the
`MAX_SOURCES` read raises `AttributeError` before the disconnected-store
check, so `search_documents` does propagate an exception to its caller. -/
theorem search_documents_degradation :
    (∀ (cfg : Config) (enc : String → Except String (List ℚ))
        (sim : List ℚ → List ℚ → ℚ) (store : List StoredDoc) (q : String) (k : Nat),
      search_documents cfg ⟨false, enc, sim, store⟩ q (some k) = .ok []) ∧
    (∀ (cfg : Config) (msg : String) (sim : List ℚ → List ℚ → ℚ)
        (store : List StoredDoc) (q : String) (k : Nat),
      search_documents cfg ⟨true, fun _ => .error msg, sim, store⟩ q (some k) = .ok []) ∧
    (∀ (cfg : Config) (enc : String → Except String (List ℚ))
        (sim : List ℚ → List ℚ → ℚ) (q : String) (k : Nat),
      search_documents cfg ⟨true, enc, sim, []⟩ q (some k) = .ok []) ∧
    (∀ (cfg : Config) (enc : String → Except String (List ℚ))
        (sim : List ℚ → List ℚ → ℚ) (store : List StoredDoc) (q : String),
      search_documents cfg ⟨false, enc, sim, store⟩ q none =
        .error "AttributeError: type object Config has no attribute MAX_SOURCES") := by
  refine ⟨fun cfg enc sim store q k => rfl, fun cfg msg sim store q k => rfl,
    ?_, fun cfg enc sim store q => rfl⟩
  intro cfg enc sim q k
  rcases henc : enc q with msg | qe
  · simp [search_documents, henc]
    rfl
  · simp [search_documents, henc, scoredCandidates, sortDesc, sortDescAux]
    rfl

/-- **C10.**  Documents whose `embedding` field is missing or empty are
silently excluded: the result is unchanged if such documents are removed
from the store beforehand, every returned entry stems from a document with
a truthy embedding, and with an explicit limit no error is ever produced,
whatever the store contains. -/
theorem search_documents_skips_embeddingless :
    (∀ (cfg : Config) (conn : Bool) (enc : String → Except String (List ℚ))
        (sim : List ℚ → List ℚ → ℚ) (store : List StoredDoc) (q : String)
        (mr : Option Nat),
      search_documents cfg ⟨conn, enc, sim, store⟩ q mr =
        search_documents cfg ⟨conn, enc, sim, store.filter hasEmbedding⟩ q mr) ∧
    (∀ (cfg : Config) (env : DbEnv) (q : String) (k : Nat) (r : List SearchResult),
      search_documents cfg env q (some k) = .ok r →
      ∀ x ∈ r, ∃ d ∈ env.store, (∃ e, d.embedding = some e ∧ e ≠ []) ∧
        x.content = d.content) ∧
    (∀ (cfg : Config) (env : DbEnv) (q : String) (k : Nat),
      ∃ r, search_documents cfg env q (some k) = .ok r) := by
  refine ⟨?_, ?_, ?_⟩
  · intro cfg conn enc sim store q mr
    rcases mr with - | k
    · rfl
    · rcases conn with - | -
      · rfl
      · rcases henc : enc q with msg | qe
        · simp [search_documents, henc]
        · simp [search_documents, henc, scoredCandidates_filter_store]
  · intro cfg env q k r hr x hx
    rcases hconn : env.is_connected with - | -
    · simp [search_documents, hconn, pure_ok, ok_bind] at hr
      subst hr
      simp at hx
    · rcases henc : env.encode q with msg | qe
      · simp [search_documents, hconn, henc, pure_ok, ok_bind] at hr
        subst hr
        simp at hx
      · simp [search_documents, hconn, henc, pure_ok, ok_bind] at hr
        subst hr
        rcases (mem_scoredCandidates
            (mem_sortDesc.mp (List.mem_of_mem_take hx))).2 with ⟨d, hd, ⟨e, he⟩, hc⟩
        exact ⟨d, hd, ⟨e, he.1, he.2.1⟩, hc⟩
  · intro cfg env q k
    rcases hconn : env.is_connected with - | -
    · exact ⟨[], by simp [search_documents, hconn]; rfl⟩
    · rcases henc : env.encode q with msg | qe
      · exact ⟨[], by simp [search_documents, hconn, henc]; rfl⟩
      · exact ⟨_, by simp [search_documents, hconn, henc]; rfl⟩

/-- Witness for `search_documents_skips_embeddingless`: a concrete store
holding one scoring document, one with a missing embedding and one with an
empty embedding returns only the scoring document. -/
theorem search_documents_skips_embeddingless_witness :
    (search_documents scenCfg
        ⟨true, fun _ => .ok [mkRat 1 1], scenEnv.cos_sim,
          [⟨"Good", some [mkRat 1 1], some "m", some "g"⟩,
           ⟨"NoEmb", none, some "m", some "g"⟩,
           ⟨"EmptyEmb", some [], some "m", some "g"⟩]⟩ "q" (some 5) =
      .ok [⟨"Good", mkRat 81 100, "m", "g"⟩]) ∧
    (∀ x ∈ [(⟨"Good", mkRat 81 100, "m", "g"⟩ : SearchResult)],
      ∃ d ∈ [(⟨"Good", some [mkRat 1 1], some "m", some "g"⟩ : StoredDoc),
             ⟨"NoEmb", none, some "m", some "g"⟩,
             ⟨"EmptyEmb", some [], some "m", some "g"⟩],
        (∃ e, d.embedding = some e ∧ e ≠ []) ∧ x.content = d.content) := by
  constructor
  · rfl
  · exact search_documents_skips_embeddingless.2.1 scenCfg
      ⟨true, fun _ => .ok [mkRat 1 1], scenEnv.cos_sim,
        [⟨"Good", some [mkRat 1 1], some "m", some "g"⟩,
         ⟨"NoEmb", none, some "m", some "g"⟩,
         ⟨"EmptyEmb", some [], some "m", some "g"⟩]⟩ "q" 5 _ (by rfl)

/-! ## Stage functions and the three-agent pipeline -/

/-- Result record of both orchestrators. -/
structure SupportResult where
  final_answer : String
  sources : List String
deriving DecidableEq, Repr

/-- `configs/models.py` `TechnicalExpertResponse`. -/
structure TechnicalExpertResponse where
  draft_solution : String
  sources : List String
deriving DecidableEq, Repr

/-- The generative capability (OpenAI chat completion) as each stage sees
it.  `api_key_set` is the truthiness of `config.OPENAI_API_KEY`; the three
generator fields model the `chat.completions.create` / `llm.invoke` calls
of the triage, draft and communication prompts, each returning reply text
or failing. -/
structure GenEnv where
  api_key_set : Bool
  triage_gen : String → Except String String
  draft_gen : String → List String → Except String String
  comm_gen : String → String → List String → Except String String

/-- Python `str.strip()` (used on every LLM reply): drop whitespace from
both ends, modelled structurally so that concrete runs evaluate. -/
def pyStrip (s : String) : String :=
  ⟨((s.data.dropWhile Char.isWhitespace).reverse.dropWhile Char.isWhitespace).reverse⟩

/-- `Agent1_TriageSpecialist._fallback_response`
(`agentWorkflow/agents.py` lines 80-81). -/
def agent1FallbackResponse (query : String) : String :=
  "Technical support query regarding: " ++ query

/-- `Agent1_TriageSpecialist._call_openai` (lines 59-77): its internal
`try/except` catches an API failure and returns a fixed sentinel string,
not derived from the query. -/
def agent1CallOpenai (env : GenEnv) (query : String) : String :=
  match env.triage_gen query with
  | .ok t => pyStrip t
  | .error _ => "OpenAI API error in Triage Specialist Agent"

/-- `Agent1_TriageSpecialist.process` (lines 45-57).  With no API key the
code calls `self._mock_response`, a method this class does not define; the
resulting `AttributeError` is caught by `process`'s `except`, which
returns `_fallback_response`.  With an API key, `_call_openai` handles its
own errors and never raises, so `process` returns its value directly. -/
def agent1Process (env : GenEnv) (query : String) : String :=
  if env.api_key_set then agent1CallOpenai env query
  else agent1FallbackResponse query

/-- `Agent2_TechnicalExpert._fallback_response` (lines 163-168). -/
def agent2FallbackResponse (query : String) (sources : List String) : String :=
  "An error occurred while generating a technical draft for your query: '" ++ query ++
    "'. Please follow general troubleshooting steps or contact technical support. " ++
    "Sources found: " ++ toString sources.length

/-- `Agent2_TechnicalExpert._call_openai` (lines 135-161): on an API
failure its handler calls `self._fallback_solution`, a method that does
not exist, so an `AttributeError` escapes to `process`'s handler. -/
def agent2CallOpenai (env : GenEnv) (query : String) (sources : List String) :
    Except String String :=
  match env.draft_gen query sources with
  | .ok t => .ok (pyStrip t)
  | .error _ => .error "AttributeError: _fallback_solution is not defined"

/-- The `try` body of `Agent2_TechnicalExpert.process` (lines 102-125).
An error carries the value the local variable `sources` held when the
exception occurred (`[]` until line 116 rebinds it).  The first step is
the evaluation of the call argument `config.MAX_SOURCES` (line 106), which
raises before `search_documents` can run. -/
def agent2Body (cfg : Config) (db : DbEnv) (env : GenEnv) (query : String) :
    Except (List String) TechnicalExpertResponse := do
  let k ← (configMaxSources cfg).mapError fun _ => ([] : List String)
  let rs ← (search_documents cfg db query (some k)).mapError fun _ => ([] : List String)
  if rs = [] then
    return ⟨"Unable to find specific information in the knowledge base. Please contact technical support for further assistance.", []⟩
  let sources := rs.map (·.content)
  let draft ← if env.api_key_set then
      (agent2CallOpenai env query sources).mapError fun _ => sources
    else pure ""
  return ⟨draft, sources⟩

/-- `Agent2_TechnicalExpert.process` (lines 102-133), `try` body plus the
`except` clause that wraps the held sources into the fallback response. -/
def agent2Process (cfg : Config) (db : DbEnv) (env : GenEnv) (query : String) :
    TechnicalExpertResponse :=
  match agent2Body cfg db env query with
  | .ok r => r
  | .error sources => ⟨agent2FallbackResponse query sources, sources⟩

/-- `Agent3_CommunicationSpecialist._mock_response` (lines 237-243). -/
def agent3MockResponse (query draft_solution : String) : String :=
  "I understand you're having trouble with: " ++ query ++
    ". Here's a simplified explanation of the steps: " ++ draft_solution ++
    ". If you run into any issues, please let us know — we're happy to help further!"

/-- `Agent3_CommunicationSpecialist._call_openai` (lines 205-235) with its
internal catch. -/
def agent3CallOpenai (env : GenEnv) (query draft_solution : String)
    (sources : List String) : String :=
  match env.comm_gen query draft_solution sources with
  | .ok t => pyStrip t
  | .error _ => "OpenAI API error in Communication Specialist Agent"

/-- `Agent3_CommunicationSpecialist.process` (lines 191-203): with an API
key it returns `_call_openai`'s value (which never raises); without one it
returns the mock response (which this class, unlike Agent1, does define). -/
def agent3Process (env : GenEnv) (query draft_solution : String)
    (sources : List String) : String :=
  if env.api_key_set then agent3CallOpenai env query draft_solution sources
  else agent3MockResponse query draft_solution

/-- `ThreeAgentSupportSystem.process_support_query`
(`agentWorkflow/agentSystem.py` lines 18-51).  Each stage method catches
its own exceptions and returns a plain value, so the orchestrator's
`except` branch (`_handle_error`, lines 53-66) is unreachable and the
pipeline is the plain sequential composition; totality of this function is
the no-raw-exception guarantee. -/
def threeAgentProcess (cfg : Config) (db : DbEnv) (env : GenEnv)
    (customer_query : String) : SupportResult :=
  let technical_query := agent1Process env customer_query
  let draft := agent2Process cfg db env technical_query
  let final_answer := agent3Process env customer_query draft.draft_solution draft.sources
  ⟨final_answer, draft.sources⟩

/-- `TriageQueryTool._run` (`agent/agent_tools.py` lines 84-110): without
an LLM it returns the templated wrapper; if the LLM invocation raises, the
outer `except` (line 108) returns the same wrapper. -/
def triageToolRun (env : GenEnv) (customer_query : String) : String :=
  if env.api_key_set then
    match env.triage_gen customer_query with
    | .ok t => pyStrip t
    | .error _ => "Technical support query regarding: " ++ customer_query
  else "Technical support query regarding: " ++ customer_query

/-- `DraftSolutionTool._run` (`agent/agent_tools.py` lines 206-245). -/
def draftToolRun (env : GenEnv) (technical_query : String)
    (sources : List String) : String :=
  if sources = [] then
    "Unable to find specific information in the knowledge base. Please contact technical support for further assistance."
  else if env.api_key_set then
    match env.draft_gen technical_query sources with
    | .ok t => pyStrip t
    | .error _ =>
        "Error generating draft solution for: " ++ technical_query ++
          ". Please contact support."
  else
    "Technical draft for: " ++ technical_query ++ ". Based on " ++
      toString sources.length ++ " sources."

/-- A helper: a string whose underlying character list is non-empty is not
the empty string, and appending on the right preserves that. -/
lemma data_ne_nil_append (a b : String) (h : a.data ≠ []) : (a ++ b).data ≠ [] := by
  rw [String.data_append]
  intro hc
  exact h (List.append_eq_nil.mp hc).1

lemma ne_empty_of_data_ne_nil {s : String} (h : s.data ≠ []) : s ≠ "" := by
  intro hc
  rw [hc] at h
  exact h rfl

/-- A generative environment with the API key set whose every invocation
fails (`ProviderUnavailable`). -/
def genFailEnv : GenEnv where
  api_key_set := true
  triage_gen := fun _ => .error "ProviderUnavailable"
  draft_gen := fun _ _ => .error "ProviderUnavailable"
  comm_gen := fun _ _ _ => .error "ProviderUnavailable"

/-- A generative environment without an API key (capability unavailable). -/
def genNoKeyEnv : GenEnv where
  api_key_set := false
  triage_gen := fun _ => .error "ProviderUnavailable"
  draft_gen := fun _ _ => .error "ProviderUnavailable"
  comm_gen := fun _ _ _ => .error "ProviderUnavailable"

/-- A disconnected database environment. -/
def dbDisc : DbEnv := ⟨false, fun _ => .error "ProviderUnavailable", fun _ _ => 0, []⟩

/-- **C6 counterexample.**  In the three-agent variant, when the
generative capability is available but its invocation fails, the triage
stage returns the fixed sentinel `"OpenAI API error in Triage Specialist
Agent"`, which does not embed the customer's query. -/
theorem agent1_failure_returns_sentinel_not_wrapper :
    agent1Process genFailEnv "My drone isn't working" =
      "OpenAI API error in Triage Specialist Agent" ∧
    ¬ ("My drone isn't working".data <:+:
        (agent1Process genFailEnv "My drone isn't working").data) :=
  ⟨rfl, by decide⟩

/-- **C6 (amended).**  The deterministic wrapper `"Technical support query
regarding: <query>"` is returned: by the coordinator-variant triage tool
both when the capability is unavailable and when its invocation fails, and
by the three-agent triage stage when the capability is unavailable; a
failed invocation in the three-agent stage instead yields the fixed
sentinel, which is still non-empty but not derived from the query. -/
theorem triage_fallback_behaviour :
    (∀ (env : GenEnv) (q : String), env.api_key_set = false →
      agent1Process env q = "Technical support query regarding: " ++ q) ∧
    (∀ (env : GenEnv) (q e : String), env.api_key_set = true →
      env.triage_gen q = .error e →
      agent1Process env q = "OpenAI API error in Triage Specialist Agent") ∧
    (∀ (env : GenEnv) (q : String), env.api_key_set = false →
      triageToolRun env q = "Technical support query regarding: " ++ q) ∧
    (∀ (env : GenEnv) (q e : String), env.api_key_set = true →
      env.triage_gen q = .error e →
      triageToolRun env q = "Technical support query regarding: " ++ q) := by
  refine ⟨?_, ?_, ?_, ?_⟩
  · intro env q hk
    simp [agent1Process, hk, agent1FallbackResponse]
  · intro env q e hk hg
    simp [agent1Process, hk, agent1CallOpenai, hg]
  · intro env q hk
    simp [triageToolRun, hk]
  · intro env q e hk hg
    simp [triageToolRun, hk, hg]

/-- Witness for `triage_fallback_behaviour` at concrete inputs. -/
theorem triage_fallback_behaviour_witness :
    agent1Process genNoKeyEnv "App help" = "Technical support query regarding: " ++ "App help" ∧
    agent1Process genFailEnv "App help" = "OpenAI API error in Triage Specialist Agent" ∧
    triageToolRun genNoKeyEnv "App help" = "Technical support query regarding: " ++ "App help" ∧
    triageToolRun genFailEnv "App help" = "Technical support query regarding: " ++ "App help" :=
  ⟨triage_fallback_behaviour.1 genNoKeyEnv "App help" rfl,
   triage_fallback_behaviour.2.1 genFailEnv "App help" "ProviderUnavailable" rfl rfl,
   triage_fallback_behaviour.2.2.1 genNoKeyEnv "App help" rfl,
   triage_fallback_behaviour.2.2.2 genFailEnv "App help" "ProviderUnavailable" rfl rfl⟩

/-- **C7 counterexample.**  In the coordinator variant, when the draft
generation fails with two sources present, the fallback message does not
state the count of sources: it is the same string for two and for three
sources, and the digit 2 appears nowhere in it. -/
theorem draft_tool_failure_drops_source_count :
    draftToolRun genFailEnv "q" ["a", "b"] =
      "Error generating draft solution for: q. Please contact support." ∧
    draftToolRun genFailEnv "q" ["a", "b"] = draftToolRun genFailEnv "q" ["a", "b", "c"] ∧
    ¬ ("2".data <:+: (draftToolRun genFailEnv "q" ["a", "b"]).data) :=
  ⟨rfl, rfl, by decide⟩

/-- **C7 (amended).**  On a failed draft generation with sources present:
the coordinator-variant tool returns a fallback naming only the query (the
retrieved sources stay in the workflow state, not in the tool's string
reply); the three-agent variant's exception fallback does name the query
and the count of the sources it held and carries that list in the
response — but since `Agent2.process` evaluates `config.MAX_SOURCES`
first, which raises, the held list is always `[]` and the response is
always the fallback with count 0. -/
theorem draft_failure_fallback_shapes :
    (∀ (env : GenEnv) (q e : String) (srcs : List String), srcs ≠ [] →
      env.api_key_set = true → env.draft_gen q srcs = .error e →
      draftToolRun env q srcs =
        "Error generating draft solution for: " ++ q ++ ". Please contact support.") ∧
    (∀ (q : String) (srcs : List String),
      q.data <:+: (agent2FallbackResponse q srcs).data ∧
      (toString srcs.length).data <:+: (agent2FallbackResponse q srcs).data) ∧
    (∀ (cfg : Config) (db : DbEnv) (env : GenEnv) (q : String),
      agent2Process cfg db env q = ⟨agent2FallbackResponse q [], []⟩) := by
  refine ⟨?_, ?_, fun cfg db env q => rfl⟩
  · intro env q e srcs hs hk hg
    simp [draftToolRun, hs, hk, hg]
  · intro q srcs
    constructor
    · refine ⟨"An error occurred while generating a technical draft for your query: '".data,
        ("'. Please follow general troubleshooting steps or contact technical support. " ++
          "Sources found: " ++ toString srcs.length).data, ?_⟩
      simp [agent2FallbackResponse]
    · refine ⟨("An error occurred while generating a technical draft for your query: '" ++ q ++
        "'. Please follow general troubleshooting steps or contact technical support. " ++
          "Sources found: ").data, [], ?_⟩
      simp [agent2FallbackResponse]

/-- Witness for `draft_failure_fallback_shapes` at concrete inputs. -/
theorem draft_failure_fallback_shapes_witness :
    draftToolRun genFailEnv "q2" ["a", "b"] =
      "Error generating draft solution for: " ++ "q2" ++ ". Please contact support." ∧
    ("q2".data <:+: (agent2FallbackResponse "q2" ["a", "b"]).data ∧
      (toString (["a", "b"] : List String).length).data <:+:
        (agent2FallbackResponse "q2" ["a", "b"]).data) ∧
    agent2Process {} dbDisc genFailEnv "q2" = ⟨agent2FallbackResponse "q2" [], []⟩ :=
  ⟨draft_failure_fallback_shapes.1 genFailEnv "q2" "ProviderUnavailable" ["a", "b"]
      (by decide) rfl rfl,
   draft_failure_fallback_shapes.2.1 "q2" ["a", "b"],
   draft_failure_fallback_shapes.2.2 {} dbDisc genFailEnv "q2"⟩

/-- A generative environment whose communication call succeeds with an
empty reply while everything else behaves. -/
def emptyReplyEnv : GenEnv where
  api_key_set := true
  triage_gen := fun _ => .ok "Technical query"
  draft_gen := fun _ _ => .error "ProviderUnavailable"
  comm_gen := fun _ _ _ => .ok ""

/-- **C1 counterexample.**  In the three-agent variant a non-empty query
can produce an empty `final_answer`: when the communication-stage call
succeeds but returns the empty string, `process` passes it through with no
emptiness check. -/
theorem threeAgent_can_return_empty_answer :
    ("App help" : String) ≠ "" ∧
    (threeAgentProcess {} dbDisc emptyReplyEnv "App help").final_answer = "" :=
  ⟨by decide, rfl⟩

/-! ## Coordinator (LangGraph) variant -/

/-- The `current_step` values of `AgentState`. -/
inductive Step
  | start | triaging | searching | drafting | finalizing | complete
deriving DecidableEq, Repr

/-- Position of a step in the fixed total order
start < triaging < searching < drafting < finalizing < complete. -/
def Step.idx : Step → Nat
  | .start => 0
  | .triaging => 1
  | .searching => 2
  | .drafting => 3
  | .finalizing => 4
  | .complete => 5

/-- The four tools of `SUPPORT_TOOLS` (`agent/agent_tools.py`). -/
inductive ToolName
  | triage_query | search_knowledge_base | generate_draft_solution
  | generate_customer_response
deriving DecidableEq, Repr

/-- A transcript entry: the coordinator's system prompt, or a tool reply.
A `tool` entry stands for a `ToolMessage` together with a successful
`tool_call_id` match to the call that produced it, which is the reading of
`_update_state_from_messages` most generous to the design (the coordinator
itself never emits `tool_calls`, so in the running system the match never
succeeds). -/
inductive Msg
  | system (content : String)
  | tool (name : ToolName) (content : String)
deriving DecidableEq, Repr

/-- `AgentState` (`agent/agentic_system.py` lines 15-24), plus the
`tool_to_run` key the coordinator stores in the same dict (lines 80-100);
`metadata` is never read and is omitted. -/
structure WorkflowState where
  messages : List Msg := []
  original_query : String := ""
  technical_query : Option String := none
  sources : List String := []
  draft_solution : Option String := none
  final_answer : Option String := none
  current_step : Step := .start
  error : Option String := none
  tool_to_run : Option ToolName := none
deriving DecidableEq, Repr

/-- Python truthiness of an optional string (`None` and `""` are falsy). -/
def truthy : Option String → Bool
  | none => false
  | some s => s ≠ ""

/-- The `initial_state` of `process_support_query` (lines 162-172). -/
def initialState (q : String) : WorkflowState :=
  { original_query := q }

/-- Lines 71-73: prepend the system message unless one is already first. -/
def ensureSystemMsg (ms : List Msg) : List Msg :=
  match ms with
  | .system c :: rest => .system c :: rest
  | _ => .system "Coordinator agent for customer support." :: ms

/-- `AgenticSupportSystem._coordinator_agent` (lines 70-104): the if/elif
chain deciding the next tool.  Branch 2 tests `technical_query is None`
(exactly `None`) while branch 3 tests truthiness, so a present-but-empty
`technical_query` matches neither and the state passes through unchanged;
an unmatched state (including `complete`) keeps its previous
`tool_to_run`. -/
def coordinatorAgent (s : WorkflowState) : WorkflowState :=
  let s := { s with messages := ensureSystemMsg s.messages }
  if s.current_step = .start then
    { s with current_step := .triaging, tool_to_run := some .triage_query }
  else if s.current_step = .triaging ∧ s.technical_query = none then
    { s with tool_to_run := some .triage_query }
  else if s.current_step = .triaging ∧ truthy s.technical_query then
    { s with current_step := .searching, tool_to_run := some .search_knowledge_base }
  else if s.current_step = .searching ∧ s.sources = [] then
    { s with tool_to_run := some .search_knowledge_base }
  else if s.current_step = .searching ∧ s.sources ≠ [] then
    { s with current_step := .drafting, tool_to_run := some .generate_draft_solution }
  else if s.current_step = .drafting ∧ ¬ truthy s.draft_solution then
    { s with tool_to_run := some .generate_draft_solution }
  else if s.current_step = .drafting ∧ truthy s.draft_solution then
    { s with current_step := .finalizing, tool_to_run := some .generate_customer_response }
  else if s.current_step = .finalizing ∧ ¬ truthy s.final_answer then
    { s with tool_to_run := some .generate_customer_response }
  else if s.current_step = .finalizing ∧ truthy s.final_answer then
    { s with current_step := .complete, tool_to_run := none }
  else s

/-- `content.strip('"')` at line 121: remove double quotes from both ends. -/
def stripQuotes (s : String) : String :=
  ⟨((s.data.dropWhile (· = '"')).reverse.dropWhile (· = '"')).reverse⟩

/-- One matched tool reply folded into the state
(`_update_state_from_messages` lines 120-132).  `parse_sources` models
`json.loads(content).get("sources", [])` with its `except` yielding `[]`. -/
def applyFold (parse_sources : String → List String) (st : WorkflowState)
    (m : Msg) : WorkflowState :=
  match m with
  | .system _ => st
  | .tool .triage_query c => { st with technical_query := some (stripQuotes c) }
  | .tool .search_knowledge_base c => { st with sources := parse_sources c }
  | .tool .generate_draft_solution c => { st with draft_solution := some c }
  | .tool .generate_customer_response c => { st with final_answer := some c }

/-- `_update_state_from_messages` (lines 107-138): iterate
`reversed(messages[-20:])` (newest first) folding each matched tool reply;
a later iteration (an older message) overwrites an earlier one. -/
def updateStateFromMessages (parse_sources : String → List String)
    (s : WorkflowState) : WorkflowState :=
  (s.messages.reverse.take 20).foldl (applyFold parse_sources) s

/-- The apology used by the finalizer's error branch (lines 144-147) and
by the top-level `except` of `process_support_query` (lines 199-204). -/
def coordApology : String :=
  "I apologize, but we're experiencing technical difficulties. Please try again later or contact support."

/-- The defensive substitute of the finalizer (lines 150-153). -/
def couldNotFindMsg : String :=
  "I couldn't find specific information for your query. Please contact our support team for assistance."

/-- The branch logic of `_finalizer_agent` (lines 143-153), applied after
its initial `_update_state_from_messages` call. -/
def finalizerCore (s : WorkflowState) : WorkflowState :=
  if truthy s.error then
    { s with final_answer := some coordApology, sources := [] }
  else if ¬ truthy s.final_answer then
    { s with final_answer := some couldNotFindMsg }
  else s

/-- `AgenticSupportSystem._finalizer_agent` (lines 140-156). -/
def finalizerAgent (parse_sources : String → List String)
    (s : WorkflowState) : WorkflowState :=
  finalizerCore (updateStateFromMessages parse_sources s)

/-- The dict returned by `KnowledgeSearchTool._run` (lines 124-165). -/
structure SearchToolResult where
  sources : List String
  source_count : Nat
  query : String
  error : Option String
deriving DecidableEq, Repr

/-- `KnowledgeSearchTool._run`: retrieval with the tool's own explicit
`max_results` (schema default 5); any exception is caught into an error
record with empty sources. -/
def searchToolRun (cfg : Config) (db : DbEnv) (technical_query : String)
    (max_results : Nat) : SearchToolResult :=
  match search_documents cfg db technical_query (some max_results) with
  | .ok rs => ⟨rs.map (·.content), (rs.map (·.content)).length, technical_query, none⟩
  | .error e => ⟨[], 0, technical_query, some e⟩

/-- `CustomerResponseTool._run` (lines 286-330). -/
def customerResponseToolRun (env : GenEnv) (original_query draft_solution : String)
    (sources : List String) : String :=
  if env.api_key_set then
    match env.comm_gen original_query draft_solution sources with
    | .ok t => pyStrip t
    | .error _ =>
        "I apologize for the inconvenience with: " ++ original_query ++
          ". Please contact our support team for assistance."
  else
    "I understand you're having trouble with: " ++ original_query ++
      ". Here's a simplified explanation of the steps: " ++ draft_solution ++
      ". If you run into any issues, please let us know — we're happy to help further!"

/-- The graph nodes of `_create_workflow` (lines 48-68). -/
inductive Node
  | coordinator | tools | finalizer | done
deriving DecidableEq, Repr

/-- Environment of the coordinator variant: config, database and
generative capabilities, plus the serialisation/parsing of the search
tool's dict reply as it crosses the `ToolMessage` boundary. -/
structure CoordEnv where
  cfg : Config
  db : DbEnv
  gen : GenEnv
  serialize_search : SearchToolResult → String
  parse_sources : String → List String

/-- The reply content the tools node would append for the dispatched tool,
with the arguments the workflow design intends each tool to receive (the
coordinator never actually emits `tool_calls`, so this binding is the
reading most generous to the design). -/
def toolOutput (env : CoordEnv) (s : WorkflowState) : ToolName → String
  | .triage_query => triageToolRun env.gen s.original_query
  | .search_knowledge_base =>
      env.serialize_search (searchToolRun env.cfg env.db (s.technical_query.getD "") 5)
  | .generate_draft_solution =>
      draftToolRun env.gen (s.technical_query.getD "") s.sources
  | .generate_customer_response =>
      customerResponseToolRun env.gen s.original_query (s.draft_solution.getD "") s.sources

/-- The `tools` node (`ToolNode(SUPPORT_TOOLS)`, line 53): executes the
dispatched tool and appends its reply to `messages`; it writes no other
state field. -/
def toolsNode (env : CoordEnv) (s : WorkflowState) : WorkflowState :=
  match s.tool_to_run with
  | none => s
  | some t => { s with messages := s.messages ++ [.tool t (toolOutput env s t)] }

/-- The conditional edge after the coordinator (lines 58-62): the
condition is `current_step in {triaging, searching, drafting,
finalizing}`.  Truthy results are routed to the tools node and falsy ones
to the finalizer — the reading most generous to the design, since the
literal path map `{"tools": "tools", END: "finalizer"}` has no boolean
keys at all. -/
def routeAfterCoordinator (s : WorkflowState) : Node :=
  if s.current_step = .triaging ∨ s.current_step = .searching ∨
      s.current_step = .drafting ∨ s.current_step = .finalizing then
    .tools
  else .finalizer

/-- One graph transition: coordinator → (tools | finalizer) via the
conditional edge; tools → coordinator (line 65, with no state-folding node
in between); finalizer → END (line 66). -/
def stepNode (env : CoordEnv) : Node → WorkflowState → Node × WorkflowState
  | .coordinator, s =>
      let s' := coordinatorAgent s
      (routeAfterCoordinator s', s')
  | .tools, s => (.coordinator, toolsNode env s)
  | .finalizer, s => (.done, finalizerAgent env.parse_sources s)
  | .done, s => (.done, s)

/-- `app.stream(...)` run under a step budget (LangGraph's recursion
limit): the final state if END is reached, `none` on budget exhaustion
(`GraphRecursionError`); the second component counts how many times the
finalizer node ran. -/
def runGraph (env : CoordEnv) : Nat → Node → WorkflowState → Nat →
    Option WorkflowState × Nat
  | 0, _, _, c => (none, c)
  | _ + 1, .done, s, c => (some s, c)
  | fuel + 1, n, s, c =>
      let p := stepNode env n s
      runGraph env fuel p.1 p.2 (c + if n = .finalizer then 1 else 0)

/-- What `process_support_query` does with the stream's outcome: a final
state is folded once more and read off (lines 187-192); an exception
(`none`, covering `GraphRecursionError` and everything else) becomes the
apology result (lines 197-205). -/
def coordProcessAux (env : CoordEnv) (out : Option WorkflowState) : SupportResult :=
  match out with
  | some st =>
      let st := updateStateFromMessages env.parse_sources st
      ⟨st.final_answer.getD "No response generated", st.sources⟩
  | none => ⟨coordApology, []⟩

/-- `AgenticSupportSystem.process_support_query` (lines 158-205): stream
the graph (recursion limit 25) and hand the outcome to `coordProcessAux`. -/
def coordProcess (env : CoordEnv) (customer_query : String) : SupportResult :=
  coordProcessAux env (runGraph env 25 .coordinator (initialState customer_query) 0).1

lemma coordinatorAgent_triaging_stuck {s : WorkflowState}
    (hstep : s.current_step = .triaging) (htq : s.technical_query = none) :
    coordinatorAgent s =
      { s with messages := ensureSystemMsg s.messages,
               tool_to_run := some .triage_query } := by
  rw [coordinatorAgent]
  simp [hstep, htq]

lemma coordinatorAgent_stuck_fields {s : WorkflowState}
    (hstep : s.current_step = .triaging) (htq : s.technical_query = none) :
    (coordinatorAgent s).current_step = .triaging ∧
      (coordinatorAgent s).technical_query = none := by
  rw [coordinatorAgent_triaging_stuck hstep htq]
  exact ⟨hstep, htq⟩

lemma routeAfterCoordinator_triaging {s : WorkflowState}
    (h : s.current_step = .triaging) : routeAfterCoordinator s = .tools := by
  simp [routeAfterCoordinator, h]

lemma toolsNode_fields (env : CoordEnv) (s : WorkflowState) :
    (toolsNode env s).current_step = s.current_step ∧
      (toolsNode env s).technical_query = s.technical_query := by
  rw [toolsNode]
  cases s.tool_to_run <;> exact ⟨rfl, rfl⟩

/-- The graph loop never leaves the triaging step: the tools node only
appends messages and nothing folds them into `technical_query` before the
next coordinator cycle, so the coordinator re-dispatches triage until the
step budget is exhausted, with the finalizer never running. -/
lemma runGraph_triaging_stuck (env : CoordEnv) :
    ∀ (fuel : Nat) (s : WorkflowState) (c : Nat),
      s.current_step = .triaging → s.technical_query = none →
      runGraph env fuel .coordinator s c = (none, c) ∧
      runGraph env fuel .tools s c = (none, c) := by
  intro fuel
  induction fuel with
  | zero => intro s c _ _; exact ⟨rfl, rfl⟩
  | succ f ih =>
      intro s c hstep htq
      have hfields := coordinatorAgent_stuck_fields hstep htq
      constructor
      · show runGraph env f (routeAfterCoordinator (coordinatorAgent s))
          (coordinatorAgent s) c = (none, c)
        rw [routeAfterCoordinator_triaging hfields.1]
        exact (ih (coordinatorAgent s) c hfields.1 hfields.2).2
      · show runGraph env f Node.coordinator (toolsNode env s) c = (none, c)
        exact (ih (toolsNode env s) c
          ((toolsNode_fields env s).1.trans hstep)
          ((toolsNode_fields env s).2.trans htq)).1

lemma runGraph_from_start (env : CoordEnv) (q : String) (fuel c : Nat) :
    runGraph env (fuel + 1) .coordinator (initialState q) c = (none, c) := by
  show runGraph env fuel (routeAfterCoordinator (coordinatorAgent (initialState q)))
    (coordinatorAgent (initialState q)) c = (none, c)
  have h1 : routeAfterCoordinator (coordinatorAgent (initialState q)) = .tools := rfl
  rw [h1]
  exact (runGraph_triaging_stuck env fuel (coordinatorAgent (initialState q)) c rfl rfl).2

/-- The stream with LangGraph's default recursion limit of 25 always
exhausts its budget. -/
lemma runGraph_25_start (env : CoordEnv) (q : String) (c : Nat) :
    runGraph env 25 .coordinator (initialState q) c = (none, c) :=
  runGraph_from_start env q 24 c

attribute [irreducible] runGraph

/-- **C4 (code bug).**  The graph routes `tools` straight back to the
coordinator (line 65) with no folding step: after the triage tool has run
and its reply sits in `messages`, the state the next coordinator cycle
observes still has `technical_query = none`, even though one application
of `_update_state_from_messages` (which the graph only performs inside the
finalizer) would populate it from exactly that reply. -/
theorem tool_results_not_folded_before_next_cycle (env : CoordEnv) (q : String) :
    (coordinatorAgent (initialState q)).tool_to_run = some .triage_query ∧
    stepNode env .tools (coordinatorAgent (initialState q)) =
      (.coordinator, toolsNode env (coordinatorAgent (initialState q))) ∧
    (toolsNode env (coordinatorAgent (initialState q))).messages =
      (coordinatorAgent (initialState q)).messages ++
        [.tool .triage_query (triageToolRun env.gen q)] ∧
    (toolsNode env (coordinatorAgent (initialState q))).technical_query = none ∧
    (updateStateFromMessages env.parse_sources
        (toolsNode env (coordinatorAgent (initialState q)))).technical_query =
      some (stripQuotes (triageToolRun env.gen q)) :=
  ⟨rfl, rfl, rfl, rfl, rfl⟩

/-- Concrete states exercising the three finalizer branches. -/
def stWithError : WorkflowState :=
  { original_query := "q", error := some "boom", final_answer := some "x", sources := ["s"] }

def stNoAnswer : WorkflowState := { original_query := "q" }

def stAnswered : WorkflowState :=
  { original_query := "q", final_answer := some "done", sources := ["s"] }

/-- **C9 (code bug).**  On every run of the coordinator variant the
finalizer node executes zero times, not once: the loop starves at the
triaging step and the recursion limit aborts the stream.  The finalizer
function itself does implement the claimed branches, shown here on
concrete states: error set → apology and cleared sources; no answer →
templated substitute; answer present and no error → untouched. -/
theorem finalizer_runs_zero_times :
    (∀ (env : CoordEnv) (q : String),
      (runGraph env 25 .coordinator (initialState q) 0).2 = 0) ∧
    finalizerCore stWithError =
      { original_query := "q", error := some "boom",
        final_answer := some coordApology, sources := [] } ∧
    finalizerCore stNoAnswer =
      { original_query := "q", final_answer := some couldNotFindMsg } ∧
    finalizerCore stAnswered = stAnswered := by
  refine ⟨?_, rfl, rfl, rfl⟩
  intro env q
  rw [runGraph_25_start env q 0]

lemma agent3Process_ne_empty {env : GenEnv} {q d : String} {srcs : List String}
    (hcomm : ∀ t, env.comm_gen q d srcs = .ok t → pyStrip t ≠ "") :
    agent3Process env q d srcs ≠ "" := by
  rcases hk : env.api_key_set with - | -
  · simp only [agent3Process, hk, Bool.false_eq_true, if_false]
    rw [agent3MockResponse]
    apply ne_empty_of_data_ne_nil
    apply data_ne_nil_append
    apply data_ne_nil_append
    apply data_ne_nil_append
    apply data_ne_nil_append
    decide
  · simp only [agent3Process, hk, if_true]
    rw [agent3CallOpenai]
    rcases hg : env.comm_gen q d srcs with e | t
    · exact ne_empty_of_data_ne_nil
        (show ("OpenAI API error in Communication Specialist Agent" : String).data ≠ []
          by decide)
    · exact hcomm t hg

/-- **C1 (amended).**  No raw exception ever escapes either orchestrator
(both embeddings are total functions into a result record).  The
coordinator variant always returns the apology result: non-empty answer,
empty sources.  The three-agent variant returns a non-empty answer
whenever every successful communication-stage reply is non-empty after
stripping; and under a blanket capability failure (with or without an API
key) it returns a non-empty fallback and an empty source list. -/
theorem support_query_no_exception_and_nonempty :
    (∀ (env : CoordEnv) (q : String), coordProcess env q = ⟨coordApology, []⟩) ∧
    (∀ (cfg : Config) (db : DbEnv) (env : GenEnv) (q : String),
      (∀ d s t, env.comm_gen q d s = .ok t → pyStrip t ≠ "") →
      (threeAgentProcess cfg db env q).final_answer ≠ "") ∧
    (∀ (cfg : Config) (db : DbEnv) (q : String) (key : Bool),
      (threeAgentProcess cfg db
        ⟨key, fun _ => .error "ProviderUnavailable",
          fun _ _ => .error "ProviderUnavailable",
          fun _ _ _ => .error "ProviderUnavailable"⟩ q).final_answer ≠ "" ∧
      (threeAgentProcess cfg db
        ⟨key, fun _ => .error "ProviderUnavailable",
          fun _ _ => .error "ProviderUnavailable",
          fun _ _ _ => .error "ProviderUnavailable"⟩ q).sources = []) := by
  refine ⟨?_, ?_, ?_⟩
  · intro env q
    have h : (runGraph env 25 .coordinator (initialState q) 0).1 = none :=
      congrArg Prod.fst (runGraph_25_start env q 0)
    show coordProcessAux env (runGraph env 25 .coordinator (initialState q) 0).1 =
      ⟨coordApology, []⟩
    rw [h]
    rfl
  · intro cfg db env q hcomm
    show agent3Process env q
      (agent2Process cfg db env (agent1Process env q)).draft_solution
      (agent2Process cfg db env (agent1Process env q)).sources ≠ ""
    exact agent3Process_ne_empty (fun t ht => hcomm _ _ t ht)
  · intro cfg db q key
    constructor
    · show agent3Process _ q _ _ ≠ ""
      exact agent3Process_ne_empty (fun t ht => Except.noConfusion ht)
    · rcases key with - | - <;> rfl

/-- A concrete coordinator environment for the witness below. -/
def coordEnvDemo : CoordEnv where
  cfg := {}
  db := dbDisc
  gen := genFailEnv
  serialize_search := fun _ => "serialized"
  parse_sources := fun _ => []

/-- A generative environment whose successful communication replies are
non-empty. -/
def politeCommEnv : GenEnv where
  api_key_set := true
  triage_gen := fun _ => .ok "Technical query"
  draft_gen := fun _ _ => .error "ProviderUnavailable"
  comm_gen := fun _ _ _ => .ok "Happy to help!"

/-- Witness for `support_query_no_exception_and_nonempty` at concrete
environments. -/
theorem support_query_no_exception_and_nonempty_witness :
    coordProcess coordEnvDemo "App help" = ⟨coordApology, []⟩ ∧
    (threeAgentProcess {} dbDisc politeCommEnv "App help").final_answer ≠ "" :=
  ⟨support_query_no_exception_and_nonempty.1 coordEnvDemo "App help",
   support_query_no_exception_and_nonempty.2.1 {} dbDisc politeCommEnv "App help"
     (fun d s t ht => by
        have h2 : ("Happy to help!" : String) = t := by
          simpa [politeCommEnv] using ht
        rw [← h2]
        decide)⟩

/-! ## Reachability invariant of the coordinator state machine -/

lemma coord_start {s : WorkflowState} (h1 : s.current_step = .start) :
    coordinatorAgent s =
      { s with messages := ensureSystemMsg s.messages,
               current_step := .triaging, tool_to_run := some .triage_query } := by
  rw [coordinatorAgent]
  simp [h1]

lemma coord_triaging_set {s : WorkflowState} (h1 : s.current_step = .triaging)
    (h2 : truthy s.technical_query = true) :
    coordinatorAgent s =
      { s with messages := ensureSystemMsg s.messages,
               current_step := .searching,
               tool_to_run := some .search_knowledge_base } := by
  have h3 : s.technical_query ≠ none := by
    intro hc
    rw [hc] at h2
    exact Bool.noConfusion h2
  rw [coordinatorAgent]
  simp [h1, h2, h3]

lemma coord_triaging_empty {s : WorkflowState} (h1 : s.current_step = .triaging)
    (h2 : s.technical_query = some "") :
    coordinatorAgent s = { s with messages := ensureSystemMsg s.messages } := by
  rw [coordinatorAgent]
  simp [h1, h2, truthy]

lemma coord_searching_empty {s : WorkflowState} (h1 : s.current_step = .searching)
    (h2 : s.sources = []) :
    coordinatorAgent s =
      { s with messages := ensureSystemMsg s.messages,
               tool_to_run := some .search_knowledge_base } := by
  rw [coordinatorAgent]
  simp [h1, h2]

lemma coord_searching_nonempty {s : WorkflowState} (h1 : s.current_step = .searching)
    (h2 : s.sources ≠ []) :
    coordinatorAgent s =
      { s with messages := ensureSystemMsg s.messages,
               current_step := .drafting,
               tool_to_run := some .generate_draft_solution } := by
  rw [coordinatorAgent]
  simp [h1, h2]

lemma coord_drafting_unset {s : WorkflowState} (h1 : s.current_step = .drafting)
    (h2 : truthy s.draft_solution = false) :
    coordinatorAgent s =
      { s with messages := ensureSystemMsg s.messages,
               tool_to_run := some .generate_draft_solution } := by
  rw [coordinatorAgent]
  simp [h1, h2]

lemma coord_drafting_set {s : WorkflowState} (h1 : s.current_step = .drafting)
    (h2 : truthy s.draft_solution = true) :
    coordinatorAgent s =
      { s with messages := ensureSystemMsg s.messages,
               current_step := .finalizing,
               tool_to_run := some .generate_customer_response } := by
  rw [coordinatorAgent]
  simp [h1, h2]

lemma coord_finalizing_unset {s : WorkflowState} (h1 : s.current_step = .finalizing)
    (h2 : truthy s.final_answer = false) :
    coordinatorAgent s =
      { s with messages := ensureSystemMsg s.messages,
               tool_to_run := some .generate_customer_response } := by
  rw [coordinatorAgent]
  simp [h1, h2]

lemma coord_finalizing_set {s : WorkflowState} (h1 : s.current_step = .finalizing)
    (h2 : truthy s.final_answer = true) :
    coordinatorAgent s =
      { s with messages := ensureSystemMsg s.messages,
               current_step := .complete, tool_to_run := none } := by
  rw [coordinatorAgent]
  simp [h1, h2]

lemma coord_complete {s : WorkflowState} (h1 : s.current_step = .complete) :
    coordinatorAgent s = { s with messages := ensureSystemMsg s.messages } := by
  rw [coordinatorAgent]
  simp [h1]

/-- The dependency field of a tool (the state field its reply populates)
is still unset, in Python truthiness. -/
def depUnset (t : ToolName) (s : WorkflowState) : Bool :=
  match t with
  | .triage_query => ! truthy s.technical_query
  | .search_knowledge_base => s.sources.isEmpty
  | .generate_draft_solution => ! truthy s.draft_solution
  | .generate_customer_response => ! truthy s.final_answer

/-- Which tool replies may already sit in the transcript at each step. -/
def toolAllowed : Step → ToolName → Prop
  | .start, _ => False
  | .triaging, t => t = .triage_query
  | .searching, t => t = .triage_query ∨ t = .search_knowledge_base
  | .drafting, t => t ≠ .generate_customer_response
  | .finalizing, _ => True
  | .complete, _ => True

def msgAllowed (st : Step) : Msg → Prop
  | .system _ => True
  | .tool t _ => toolAllowed st t

/-- The population discipline of reachable workflow states at a given
step: fields of later stages are still unset, the dispatched tool is the
current step's tool, and the transcript only holds replies of tools
dispatched so far. -/
def invAt : Step → WorkflowState → Prop
  | .start, s =>
      s.technical_query = none ∧ s.sources = [] ∧ s.draft_solution = none ∧
        s.final_answer = none ∧ s.tool_to_run = none ∧
        ∀ m ∈ s.messages, msgAllowed .start m
  | .triaging, s =>
      s.sources = [] ∧ s.draft_solution = none ∧ s.final_answer = none ∧
        s.tool_to_run = some .triage_query ∧
        ∀ m ∈ s.messages, msgAllowed .triaging m
  | .searching, s =>
      s.draft_solution = none ∧ s.final_answer = none ∧
        s.tool_to_run = some .search_knowledge_base ∧
        ∀ m ∈ s.messages, msgAllowed .searching m
  | .drafting, s =>
      s.final_answer = none ∧ s.tool_to_run = some .generate_draft_solution ∧
        ∀ m ∈ s.messages, msgAllowed .drafting m
  | .finalizing, s => s.tool_to_run = some .generate_customer_response
  | .complete, s => s.tool_to_run = none

def Inv (s : WorkflowState) : Prop := invAt s.current_step s

/-- States reachable in the workflow: the initial state, closed under a
coordinator cycle, a tools-node execution and a message fold. -/
inductive Reachable : WorkflowState → Prop
  | init (q : String) : Reachable (initialState q)
  | coord {s : WorkflowState} : Reachable s → Reachable (coordinatorAgent s)
  | tools {s : WorkflowState} (env : CoordEnv) :
      Reachable s → Reachable (toolsNode env s)
  | fold {s : WorkflowState} (ps : String → List String) :
      Reachable s → Reachable (updateStateFromMessages ps s)

lemma msgAllowed_mono {a b : Step} (hab : a.idx ≤ b.idx) {m : Msg}
    (h : msgAllowed a m) : msgAllowed b m := by
  rcases m with c | ⟨t, c⟩
  · rcases b <;> exact trivial
  · have h2 : toolAllowed a t := h
    show toolAllowed b t
    rcases a <;> rcases b <;> rcases t <;>
      simp_all [toolAllowed, Step.idx]

lemma ensureSystemMsg_allowed {st : Step} {ms : List Msg}
    (h : ∀ m ∈ ms, msgAllowed st m) :
    ∀ m ∈ ensureSystemMsg ms, msgAllowed st m := by
  intro m hm
  rcases ms with - | ⟨head, rest⟩
  · have he : ensureSystemMsg [] =
        [.system "Coordinator agent for customer support."] := rfl
    rw [he] at hm
    rcases List.mem_cons.mp hm with rfl | h2
    · rcases st <;> exact trivial
    · exact absurd h2 (List.not_mem_nil m)
  · rcases head with c | ⟨t, c⟩
    · have he : ensureSystemMsg (Msg.system c :: rest) = Msg.system c :: rest := rfl
      rw [he] at hm
      exact h m hm
    · have he : ensureSystemMsg (Msg.tool t c :: rest) =
          .system "Coordinator agent for customer support." ::
            Msg.tool t c :: rest := rfl
      rw [he] at hm
      rcases List.mem_cons.mp hm with rfl | h2
      · rcases st <;> exact trivial
      · exact h m h2

lemma applyFold_const (ps : String → List String) (st : WorkflowState) (m : Msg) :
    (applyFold ps st m).current_step = st.current_step ∧
      (applyFold ps st m).tool_to_run = st.tool_to_run ∧
      (applyFold ps st m).messages = st.messages ∧
      (applyFold ps st m).error = st.error := by
  rcases m with c | ⟨t, c⟩
  · exact ⟨rfl, rfl, rfl, rfl⟩
  · rcases t <;> exact ⟨rfl, rfl, rfl, rfl⟩

lemma foldl_applyFold_const (ps : String → List String) :
    ∀ (L : List Msg) (st : WorkflowState),
      (L.foldl (applyFold ps) st).current_step = st.current_step ∧
        (L.foldl (applyFold ps) st).tool_to_run = st.tool_to_run ∧
        (L.foldl (applyFold ps) st).messages = st.messages ∧
        (L.foldl (applyFold ps) st).error = st.error := by
  intro L
  induction L with
  | nil => intro st; exact ⟨rfl, rfl, rfl, rfl⟩
  | cons m ms ih =>
      intro st
      rw [List.foldl_cons]
      have h1 := applyFold_const ps st m
      have h2 := ih (applyFold ps st m)
      exact ⟨h2.1.trans h1.1, h2.2.1.trans h1.2.1,
        h2.2.2.1.trans h1.2.2.1, h2.2.2.2.trans h1.2.2.2⟩

lemma foldl_applyFold_tq (ps : String → List String) :
    ∀ (L : List Msg) (st : WorkflowState),
      (∀ c, Msg.tool .triage_query c ∉ L) →
      (L.foldl (applyFold ps) st).technical_query = st.technical_query := by
  intro L
  induction L with
  | nil => intro st _; rfl
  | cons m ms ih =>
      intro st h
      rw [List.foldl_cons,
        ih _ (fun c hc => h c (List.mem_cons_of_mem _ hc))]
      rcases m with c | ⟨t, c⟩
      · rfl
      · rcases t with - | - | - | -
        · exact absurd (List.mem_cons_self _ _) (h c)
        · rfl
        · rfl
        · rfl

lemma foldl_applyFold_sources (ps : String → List String) :
    ∀ (L : List Msg) (st : WorkflowState),
      (∀ c, Msg.tool .search_knowledge_base c ∉ L) →
      (L.foldl (applyFold ps) st).sources = st.sources := by
  intro L
  induction L with
  | nil => intro st _; rfl
  | cons m ms ih =>
      intro st h
      rw [List.foldl_cons,
        ih _ (fun c hc => h c (List.mem_cons_of_mem _ hc))]
      rcases m with c | ⟨t, c⟩
      · rfl
      · rcases t with - | - | - | -
        · rfl
        · exact absurd (List.mem_cons_self _ _) (h c)
        · rfl
        · rfl

lemma foldl_applyFold_draft (ps : String → List String) :
    ∀ (L : List Msg) (st : WorkflowState),
      (∀ c, Msg.tool .generate_draft_solution c ∉ L) →
      (L.foldl (applyFold ps) st).draft_solution = st.draft_solution := by
  intro L
  induction L with
  | nil => intro st _; rfl
  | cons m ms ih =>
      intro st h
      rw [List.foldl_cons,
        ih _ (fun c hc => h c (List.mem_cons_of_mem _ hc))]
      rcases m with c | ⟨t, c⟩
      · rfl
      · rcases t with - | - | - | -
        · rfl
        · rfl
        · exact absurd (List.mem_cons_self _ _) (h c)
        · rfl

lemma foldl_applyFold_final (ps : String → List String) :
    ∀ (L : List Msg) (st : WorkflowState),
      (∀ c, Msg.tool .generate_customer_response c ∉ L) →
      (L.foldl (applyFold ps) st).final_answer = st.final_answer := by
  intro L
  induction L with
  | nil => intro st _; rfl
  | cons m ms ih =>
      intro st h
      rw [List.foldl_cons,
        ih _ (fun c hc => h c (List.mem_cons_of_mem _ hc))]
      rcases m with c | ⟨t, c⟩
      · rfl
      · rcases t with - | - | - | -
        · rfl
        · rfl
        · rfl
        · exact absurd (List.mem_cons_self _ _) (h c)

lemma mem_window {s : WorkflowState} {m : Msg}
    (hm : m ∈ s.messages.reverse.take 20) : m ∈ s.messages :=
  List.mem_reverse.mp (List.mem_of_mem_take hm)

lemma inv_initial (q : String) : Inv (initialState q) := by
  rw [Inv]
  show invAt .start (initialState q)
  exact ⟨rfl, rfl, rfl, rfl, rfl, fun m hm => absurd hm (List.not_mem_nil m)⟩

lemma inv_coordinator {s : WorkflowState} (h : Inv s) :
    Inv (coordinatorAgent s) := by
  rcases hstep : s.current_step with - | - | - | - | - | -
  case start =>
    have h' : invAt .start s := by rw [Inv, hstep] at h; exact h
    rw [coord_start hstep, Inv]
    show invAt .triaging _
    exact ⟨h'.2.1, h'.2.2.1, h'.2.2.2.1, rfl,
      ensureSystemMsg_allowed
        (fun m hm => msgAllowed_mono (by decide) (h'.2.2.2.2.2 m hm))⟩
  case triaging =>
    have h' : invAt .triaging s := by rw [Inv, hstep] at h; exact h
    rcases htq : s.technical_query with - | str
    · rw [coordinatorAgent_triaging_stuck hstep htq, Inv]
      dsimp only
      rw [hstep]
      exact ⟨h'.1, h'.2.1, h'.2.2.1, rfl, ensureSystemMsg_allowed h'.2.2.2.2⟩
    · by_cases hstr : str = ""
      · subst hstr
        rw [coord_triaging_empty hstep htq, Inv]
        dsimp only
        rw [hstep]
        exact ⟨h'.1, h'.2.1, h'.2.2.1, h'.2.2.2.1,
          ensureSystemMsg_allowed h'.2.2.2.2⟩
      · have htr : truthy s.technical_query = true := by
          rw [htq]; simp [truthy, hstr]
        rw [coord_triaging_set hstep htr, Inv]
        show invAt .searching _
        exact ⟨h'.2.1, h'.2.2.1, rfl,
          ensureSystemMsg_allowed
            (fun m hm => msgAllowed_mono (by decide) (h'.2.2.2.2 m hm))⟩
  case searching =>
    have h' : invAt .searching s := by rw [Inv, hstep] at h; exact h
    rcases hsrc : s.sources with - | ⟨x, xs⟩
    · rw [coord_searching_empty hstep hsrc, Inv]
      dsimp only
      rw [hstep]
      exact ⟨h'.1, h'.2.1, rfl, ensureSystemMsg_allowed h'.2.2.2⟩
    · have hne : s.sources ≠ [] := by rw [hsrc]; simp
      rw [coord_searching_nonempty hstep hne, Inv]
      show invAt .drafting _
      exact ⟨h'.2.1, rfl,
        ensureSystemMsg_allowed
          (fun m hm => msgAllowed_mono (by decide) (h'.2.2.2 m hm))⟩
  case drafting =>
    have h' : invAt .drafting s := by rw [Inv, hstep] at h; exact h
    rcases hd : truthy s.draft_solution with - | -
    · rw [coord_drafting_unset hstep hd, Inv]
      dsimp only
      rw [hstep]
      exact ⟨h'.1, rfl, ensureSystemMsg_allowed h'.2.2⟩
    · rw [coord_drafting_set hstep hd, Inv]
      show invAt .finalizing _
      rfl
  case finalizing =>
    rcases hf : truthy s.final_answer with - | -
    · rw [coord_finalizing_unset hstep hf, Inv]
      dsimp only
      rw [hstep]
      rfl
    · rw [coord_finalizing_set hstep hf, Inv]
      show invAt .complete _
      rfl
  case complete =>
    have h' : invAt .complete s := by rw [Inv, hstep] at h; exact h
    rw [coord_complete hstep, Inv]
    dsimp only
    rw [hstep]
    exact h'

lemma inv_tools {s : WorkflowState} (env : CoordEnv) (h : Inv s) :
    Inv (toolsNode env s) := by
  rcases htool : s.tool_to_run with - | t
  · have he : toolsNode env s = s := by rw [toolsNode, htool]
    rw [he]
    exact h
  · have he : toolsNode env s =
        { s with messages := s.messages ++ [.tool t (toolOutput env s t)] } := by
      rw [toolsNode, htool]
    rw [he]
    rcases hstep : s.current_step with - | - | - | - | - | -
    case start =>
      have h' : invAt .start s := by rw [Inv, hstep] at h; exact h
      rw [h'.2.2.2.2.1] at htool
      exact Option.noConfusion htool
    case triaging =>
      have h' : invAt .triaging s := by rw [Inv, hstep] at h; exact h
      have ht : t = .triage_query := by
        rw [h'.2.2.2.1] at htool
        exact (Option.some.injEq _ _ ▸ htool).symm
      rw [Inv]
      show invAt .triaging _
      refine ⟨h'.1, h'.2.1, h'.2.2.1, h'.2.2.2.1, ?_⟩
      intro m hm
      rcases List.mem_append.mp hm with hm | hm
      · exact h'.2.2.2.2 m hm
      · rcases List.mem_singleton.mp hm with rfl
        exact ht
    case searching =>
      have h' : invAt .searching s := by rw [Inv, hstep] at h; exact h
      have ht : t = .search_knowledge_base := by
        rw [h'.2.2.1] at htool
        exact (Option.some.injEq _ _ ▸ htool).symm
      rw [Inv]
      show invAt .searching _
      refine ⟨h'.1, h'.2.1, h'.2.2.1, ?_⟩
      intro m hm
      rcases List.mem_append.mp hm with hm | hm
      · exact h'.2.2.2 m hm
      · rcases List.mem_singleton.mp hm with rfl
        exact Or.inr ht
    case drafting =>
      have h' : invAt .drafting s := by rw [Inv, hstep] at h; exact h
      have ht : t = .generate_draft_solution := by
        rw [h'.2.1] at htool
        exact (Option.some.injEq _ _ ▸ htool).symm
      rw [Inv]
      show invAt .drafting _
      refine ⟨h'.1, h'.2.1, ?_⟩
      intro m hm
      rcases List.mem_append.mp hm with hm | hm
      · exact h'.2.2 m hm
      · rcases List.mem_singleton.mp hm with rfl
        rw [ht]
        exact fun hc => ToolName.noConfusion hc
    case finalizing =>
      have h' : invAt .finalizing s := by rw [Inv, hstep] at h; exact h
      rw [Inv]
      show invAt .finalizing _
      exact h'
    case complete =>
      have h' : invAt .complete s := by rw [Inv, hstep] at h; exact h
      rw [h'] at htool
      exact Option.noConfusion htool

lemma inv_fold {s : WorkflowState} (ps : String → List String) (h : Inv s) :
    Inv (updateStateFromMessages ps s) := by
  have hu : updateStateFromMessages ps s =
      (s.messages.reverse.take 20).foldl (applyFold ps) s := rfl
  have hconst := foldl_applyFold_const ps (s.messages.reverse.take 20) s
  rw [hu, Inv, hconst.1]
  rcases hstep : s.current_step with - | - | - | - | - | -
  case start =>
    have h' : invAt .start s := by rw [Inv, hstep] at h; exact h
    have hno : ∀ (t : ToolName) (c : String),
        Msg.tool t c ∉ s.messages.reverse.take 20 := by
      intro t c hc
      exact (h'.2.2.2.2.2 _ (mem_window hc) : toolAllowed .start t)
    refine ⟨?_, ?_, ?_, ?_, ?_, ?_⟩
    · rw [foldl_applyFold_tq ps _ s (fun c => hno _ c)]
      exact h'.1
    · rw [foldl_applyFold_sources ps _ s (fun c => hno _ c)]
      exact h'.2.1
    · rw [foldl_applyFold_draft ps _ s (fun c => hno _ c)]
      exact h'.2.2.1
    · rw [foldl_applyFold_final ps _ s (fun c => hno _ c)]
      exact h'.2.2.2.1
    · rw [hconst.2.1]
      exact h'.2.2.2.2.1
    · intro m hm
      rw [hconst.2.2.1] at hm
      exact h'.2.2.2.2.2 m hm
  case triaging =>
    have h' : invAt .triaging s := by rw [Inv, hstep] at h; exact h
    have hall : ∀ (t : ToolName) (c : String),
        Msg.tool t c ∈ s.messages.reverse.take 20 → t = .triage_query := by
      intro t c hc
      exact (h'.2.2.2.2 _ (mem_window hc) : toolAllowed .triaging t)
    refine ⟨?_, ?_, ?_, ?_, ?_⟩
    · rw [foldl_applyFold_sources ps _ s
        (fun c hc => ToolName.noConfusion (hall _ c hc))]
      exact h'.1
    · rw [foldl_applyFold_draft ps _ s
        (fun c hc => ToolName.noConfusion (hall _ c hc))]
      exact h'.2.1
    · rw [foldl_applyFold_final ps _ s
        (fun c hc => ToolName.noConfusion (hall _ c hc))]
      exact h'.2.2.1
    · rw [hconst.2.1]
      exact h'.2.2.2.1
    · intro m hm
      rw [hconst.2.2.1] at hm
      exact h'.2.2.2.2 m hm
  case searching =>
    have h' : invAt .searching s := by rw [Inv, hstep] at h; exact h
    have hall : ∀ (t : ToolName) (c : String),
        Msg.tool t c ∈ s.messages.reverse.take 20 →
          t = .triage_query ∨ t = .search_knowledge_base := by
      intro t c hc
      exact (h'.2.2.2 _ (mem_window hc) : toolAllowed .searching t)
    refine ⟨?_, ?_, ?_, ?_⟩
    · rw [foldl_applyFold_draft ps _ s (fun c hc => by
        rcases hall _ c hc with h2 | h2 <;> exact ToolName.noConfusion h2)]
      exact h'.1
    · rw [foldl_applyFold_final ps _ s (fun c hc => by
        rcases hall _ c hc with h2 | h2 <;> exact ToolName.noConfusion h2)]
      exact h'.2.1
    · rw [hconst.2.1]
      exact h'.2.2.1
    · intro m hm
      rw [hconst.2.2.1] at hm
      exact h'.2.2.2 m hm
  case drafting =>
    have h' : invAt .drafting s := by rw [Inv, hstep] at h; exact h
    have hall : ∀ (t : ToolName) (c : String),
        Msg.tool t c ∈ s.messages.reverse.take 20 →
          t ≠ .generate_customer_response := by
      intro t c hc
      exact (h'.2.2 _ (mem_window hc) : toolAllowed .drafting t)
    refine ⟨?_, ?_, ?_⟩
    · rw [foldl_applyFold_final ps _ s (fun c hc => hall _ c hc rfl)]
      exact h'.1
    · rw [hconst.2.1]
      exact h'.2.1
    · intro m hm
      rw [hconst.2.2.1] at hm
      exact h'.2.2 m hm
  case finalizing =>
    have h' : invAt .finalizing s := by rw [Inv, hstep] at h; exact h
    show (List.foldl (applyFold ps) s (List.take 20 s.messages.reverse)).tool_to_run =
      some .generate_customer_response
    rw [hconst.2.1]
    exact h'
  case complete =>
    have h' : invAt .complete s := by rw [Inv, hstep] at h; exact h
    show (List.foldl (applyFold ps) s (List.take 20 s.messages.reverse)).tool_to_run = none
    rw [hconst.2.1]
    exact h'

/-- Every reachable state satisfies the population discipline. -/
lemma reachable_inv {s : WorkflowState} (h : Reachable s) : Inv s := by
  induction h with
  | init q => exact inv_initial q
  | coord _ ih => exact inv_coordinator ih
  | tools env _ ih => exact inv_tools env ih
  | fold ps _ ih => exact inv_fold ps ih

/-- **C3.**  One coordinator cycle on any reachable state never moves
`current_step` backwards in the order start < triaging < searching <
drafting < finalizing < complete, advances by at most one step, leaves a
step only when that step's field is populated (so no step whose required
field is unset is ever skipped), and every action it dispatches has its
dependency field still unset — same-step retries with an unset field
included. -/
theorem coordinator_cycle_invariants (s : WorkflowState) (hs : Reachable s) :
    s.current_step.idx ≤ (coordinatorAgent s).current_step.idx ∧
    (coordinatorAgent s).current_step.idx ≤ s.current_step.idx + 1 ∧
    (s.current_step = .triaging → (coordinatorAgent s).current_step = .searching →
      truthy s.technical_query = true) ∧
    (s.current_step = .searching → (coordinatorAgent s).current_step = .drafting →
      s.sources ≠ []) ∧
    (s.current_step = .drafting → (coordinatorAgent s).current_step = .finalizing →
      truthy s.draft_solution = true) ∧
    (s.current_step = .finalizing → (coordinatorAgent s).current_step = .complete →
      truthy s.final_answer = true) ∧
    (∀ t, (coordinatorAgent s).tool_to_run = some t →
      depUnset t (coordinatorAgent s) = true) := by
  have hinv := reachable_inv hs
  rcases hstep : s.current_step with - | - | - | - | - | -
  case start =>
    have h' : invAt .start s := by rw [Inv, hstep] at hinv; exact hinv
    rw [coord_start hstep]
    dsimp only
    refine ⟨by decide, by decide,
      fun hc => absurd hc (by decide), fun hc => absurd hc (by decide),
      fun hc => absurd hc (by decide), fun hc => absurd hc (by decide), ?_⟩
    intro t ht
    injection ht with ht
    subst ht
    simp [depUnset, truthy, h'.1]
  case triaging =>
    have h' : invAt .triaging s := by rw [Inv, hstep] at hinv; exact hinv
    rcases htq : s.technical_query with - | str
    · rw [coordinatorAgent_triaging_stuck hstep htq]
      dsimp only
      rw [hstep]
      refine ⟨by decide, by decide,
        fun _ hc => absurd hc (by decide), fun hc => absurd hc (by decide),
        fun hc => absurd hc (by decide), fun hc => absurd hc (by decide), ?_⟩
      intro t ht
      injection ht with ht
      subst ht
      simp [depUnset, truthy, htq]
    · by_cases hstr : str = ""
      · subst hstr
        rw [coord_triaging_empty hstep htq]
        dsimp only
        rw [hstep]
        refine ⟨by decide, by decide,
          fun _ hc => absurd hc (by decide), fun hc => absurd hc (by decide),
          fun hc => absurd hc (by decide), fun hc => absurd hc (by decide), ?_⟩
        intro t ht
        rw [h'.2.2.2.1] at ht
        injection ht with ht
        subst ht
        simp [depUnset, truthy, htq]
      · have htr : truthy s.technical_query = true := by
          rw [htq]; simp [truthy, hstr]
        rw [coord_triaging_set hstep htr]
        dsimp only
        refine ⟨by decide, by decide, fun _ _ => by simp [truthy, hstr],
          fun hc => absurd hc (by decide), fun hc => absurd hc (by decide),
          fun hc => absurd hc (by decide), ?_⟩
        intro t ht
        injection ht with ht
        subst ht
        simp [depUnset, h'.1]
  case searching =>
    have h' : invAt .searching s := by rw [Inv, hstep] at hinv; exact hinv
    rcases hsrc : s.sources with - | ⟨x, xs⟩
    · rw [coord_searching_empty hstep hsrc]
      dsimp only
      rw [hstep]
      refine ⟨by decide, by decide, fun hc => absurd hc (by decide),
        fun _ hc => absurd hc (by decide), fun hc => absurd hc (by decide),
        fun hc => absurd hc (by decide), ?_⟩
      intro t ht
      injection ht with ht
      subst ht
      simp [depUnset, hsrc]
    · have hne : s.sources ≠ [] := by rw [hsrc]; simp
      rw [coord_searching_nonempty hstep hne]
      dsimp only
      refine ⟨by decide, by decide, fun hc => absurd hc (by decide),
        fun _ _ => List.cons_ne_nil x xs, fun hc => absurd hc (by decide),
        fun hc => absurd hc (by decide), ?_⟩
      intro t ht
      injection ht with ht
      subst ht
      simp [depUnset, truthy, h'.1]
  case drafting =>
    have h' : invAt .drafting s := by rw [Inv, hstep] at hinv; exact hinv
    rcases hd : truthy s.draft_solution with - | -
    · rw [coord_drafting_unset hstep hd]
      dsimp only
      rw [hstep]
      refine ⟨by decide, by decide, fun hc => absurd hc (by decide),
        fun hc => absurd hc (by decide), fun _ hc => absurd hc (by decide),
        fun hc => absurd hc (by decide), ?_⟩
      intro t ht
      injection ht with ht
      subst ht
      simp [depUnset, hd]
    · rw [coord_drafting_set hstep hd]
      dsimp only
      refine ⟨by decide, by decide, fun hc => absurd hc (by decide),
        fun hc => absurd hc (by decide), fun _ _ => rfl,
        fun hc => absurd hc (by decide), ?_⟩
      intro t ht
      injection ht with ht
      subst ht
      simp [depUnset, truthy, h'.1]
  case finalizing =>
    rcases hf : truthy s.final_answer with - | -
    · rw [coord_finalizing_unset hstep hf]
      dsimp only
      rw [hstep]
      refine ⟨by decide, by decide, fun hc => absurd hc (by decide),
        fun hc => absurd hc (by decide), fun hc => absurd hc (by decide),
        fun _ hc => absurd hc (by decide), ?_⟩
      intro t ht
      injection ht with ht
      subst ht
      simp [depUnset, hf]
    · rw [coord_finalizing_set hstep hf]
      dsimp only
      refine ⟨by decide, by decide, fun hc => absurd hc (by decide),
        fun hc => absurd hc (by decide), fun hc => absurd hc (by decide),
        fun _ _ => rfl, ?_⟩
      intro t ht
      exact Option.noConfusion ht
  case complete =>
    have h' : invAt .complete s := by rw [Inv, hstep] at hinv; exact hinv
    rw [coord_complete hstep]
    dsimp only
    rw [hstep]
    refine ⟨by decide, by decide, fun hc => absurd hc (by decide),
      fun hc => absurd hc (by decide), fun hc => absurd hc (by decide),
      fun hc => absurd hc (by decide), ?_⟩
    intro t ht
    rw [h'] at ht
    exact Option.noConfusion ht

/-- Witness for `coordinator_cycle_invariants` at a concrete reachable
state: the initial state of the query "hi". -/
theorem coordinator_cycle_invariants_witness :
    (initialState "hi").current_step.idx ≤
      (coordinatorAgent (initialState "hi")).current_step.idx ∧
    (coordinatorAgent (initialState "hi")).current_step.idx ≤
      (initialState "hi").current_step.idx + 1 ∧
    ((initialState "hi").current_step = .triaging →
      (coordinatorAgent (initialState "hi")).current_step = .searching →
      truthy (initialState "hi").technical_query = true) ∧
    ((initialState "hi").current_step = .searching →
      (coordinatorAgent (initialState "hi")).current_step = .drafting →
      (initialState "hi").sources ≠ []) ∧
    ((initialState "hi").current_step = .drafting →
      (coordinatorAgent (initialState "hi")).current_step = .finalizing →
      truthy (initialState "hi").draft_solution = true) ∧
    ((initialState "hi").current_step = .finalizing →
      (coordinatorAgent (initialState "hi")).current_step = .complete →
      truthy (initialState "hi").final_answer = true) ∧
    (∀ t, (coordinatorAgent (initialState "hi")).tool_to_run = some t →
      depUnset t (coordinatorAgent (initialState "hi")) = true) :=
  coordinator_cycle_invariants (initialState "hi") (Reachable.init "hi")
